import Mathlib

/-!
Verification development for the site-learn-ai repository.

The analysis-to-function-map pipeline (src/lib/analysis-service.ts), the
HTTP entry point (src/api/projects/route.ts), the key issuers, the plugin
compiler (src/lib/api.ts) and the in-page plugin runtime
(src/components/ProjectsList.tsx and the script text produced by
generatePluginCode) are embedded shallowly below.  External effects
(headless browser, text-generation model, git clone, filesystem, fetch)
are modelled by explicit outcome values handed to the embedded functions;
`JSON.parse` of an externally produced string is modelled by its result,
an `Option Json` (`none` when parsing throws).
-/

namespace SiteLearn

/-- JavaScript JSON values: the possible results of a successful
`JSON.parse` call. -/
inductive Json where
  | str  : String → Json
  | num  : Int → Json
  | bool : Bool → Json
  | null : Json
  | arr  : List Json → Json
  | obj  : List (String × Json) → Json
  deriving Repr

/-- A JavaScript object used as a map, in insertion order.  The TS code
types these as `Record<string, string>`, but at runtime the values are
whatever `JSON.parse` produced, so entries carry `Json` values. -/
abbrev FunctionMap := List (String × Json)

/-- JavaScript property assignment `m[k] = v`: an existing key keeps its
position and gets the new value, a new key is appended.  JavaScript
objects never carry duplicate keys, so replacing the first occurrence is
the object semantics. -/
def setKey : FunctionMap → String → Json → FunctionMap
  | [], k, v => [(k, v)]
  | (a, b) :: rest, k, v =>
      if a = k then (k, v) :: rest else (a, b) :: setKey rest k v

/-- JavaScript property read `m[k]` on an object map. -/
def lookupKey : FunctionMap → String → Option Json
  | [], _ => none
  | (a, b) :: rest, k => if a = k then some b else lookupKey rest k

/-- The own enumerable entries of a JavaScript value, as consumed by
`Object.assign(target, value)`: objects contribute their entries, arrays
and strings their indexed elements, primitives nothing. -/
def ownEntries : Json → List (String × Json)
  | Json.obj es => es
  | Json.arr xs => xs.enum.map (fun p => (toString p.1, p.2))
  | Json.str s => s.toList.enum.map (fun p => (toString p.1, Json.str (String.singleton p.2)))
  | _ => []

/-- `Object.assign(m, j)`: merge the own enumerable entries of `j` into
`m` in order, later entries overwriting earlier ones. -/
def objAssign (m : FunctionMap) (j : Json) : FunctionMap :=
  (ownEntries j).foldl (fun acc p => setKey acc p.1 p.2) m

/-- Fallback map returned by `analyzeWebsite` when `JSON.parse` of the
model response throws (analysis-service.ts, catch branch). -/
def pageFallback : FunctionMap :=
  [("main-header", Json.str "The main navigation header of the website"),
   ("hero-section", Json.str "The primary hero section introducing the website"),
   ("content-area", Json.str "Main content area with key information"),
   ("footer", Json.str "Website footer with additional links and information")]

/-- Fallback map returned by `analyzeRepository` when the accumulated
function map is empty (analysis-service.ts, final return). -/
def repoFallback : FunctionMap :=
  [("app-component", Json.str "Main application component"),
   ("user-interface", Json.str "User interface elements"),
   ("navigation", Json.str "Application navigation system"),
   ("content-display", Json.str "Content display components")]

/-- Accumulation loop of `analyzeRepository` over the per-file outcomes:
`none` is a file whose generation call or `JSON.parse` threw (caught and
skipped), `some j` is a successfully parsed model response merged via
`Object.assign`. -/
def repoAccum (rs : List (Option Json)) : FunctionMap :=
  rs.foldl (fun m o => match o with | none => m | some j => objAssign m j) []

/-- Final normalization step of `analyzeRepository`: the accumulated map
when non-empty, the fixed fallback otherwise. -/
def repoNormalize (rs : List (Option Json)) : FunctionMap :=
  let m := repoAccum rs
  if m.isEmpty then repoFallback else m

/-! ## Repository extractor (getRelevantFiles) -/

/-- Node `path.extname` restricted to plain directory entry names: the
substring from the last dot, empty when there is no dot or the only dot
is the leading character. -/
def extname (name : String) : String :=
  let cs := name.toList
  match ((cs.enum.filter (fun p => p.2 == '.')).map Prod.fst).getLast? with
  | none => ""
  | some 0 => ""
  | some i => String.mk (cs.drop i)

/-- Extension allow-list of getRelevantFiles. -/
def relevantExtensions : List String :=
  [".js", ".jsx", ".ts", ".tsx", ".html", ".vue", ".py", ".php"]

/-- Directory names skipped by getRelevantFiles. -/
def excludedDirs : List String := ["node_modules", "dist", "build"]

/-- A directory entry as seen by the recursive walk: a plain file or a
directory with its children in `readdirSync` order. -/
inductive FsEntry where
  | file (name : String)
  | dir (name : String) (children : List FsEntry)
  deriving Repr

/-- A collected file descriptor; `path` is the path relative to the scan
root, as a list of components ending with the file name. -/
structure FileDesc where
  name : String
  path : List String
  extension : String
  deriving Repr

/-- JavaScript `item.startsWith('.')` on a directory entry name: the
first character is a dot. -/
def hiddenName (name : String) : Bool :=
  name.toList.head? == some '.'

/-- The `scanDirectory` loop of getRelevantFiles over a list of sibling
entries: directories recurse unless hidden or excluded, files are kept
when their extension is on the allow-list, in traversal order. -/
def scanForest : List String → List FsEntry → List FileDesc
  | _, [] => []
  | pfx, FsEntry.file name :: rest =>
      (if relevantExtensions.contains (extname name) then
        [{ name := name, path := pfx ++ [name], extension := extname name }]
      else []) ++ scanForest pfx rest
  | pfx, FsEntry.dir name children :: rest =>
      (if hiddenName name || excludedDirs.contains name then []
       else scanForest (pfx ++ [name]) children) ++ scanForest pfx rest

/-- getRelevantFiles: scan the cloned tree from its root. -/
def getRelevantFiles (tree : List FsEntry) : List FileDesc :=
  scanForest [] tree

/-! ## Effects and analyzeWebsite -/

/-- Observable external side effects of one analysis run. -/
inductive Effect where
  | browserLaunch
  | pageGoto (url : String)
  | generateCall
  | gitClone (url : String)
  deriving Repr, DecidableEq

/-- External outcome of one analyzeWebsite call: navigation or content
extraction throws, the generation call throws, or the model responds and
its raw text parses to `some j`, or fails to parse (`none`). -/
inductive PageOutcome where
  | navError (msg : String)
  | genError (msg : String)
  | response (parse : Option Json)
  deriving Repr

/-- analyzeWebsite: on a model response the raw text is `JSON.parse`d and
returned as-is; only a parse throw is caught and replaced by the fixed
page fallback.  Navigation and generation errors propagate (after the
browser is closed).  The returned value is whatever `JSON.parse`
produced, hence `Json`. -/
def analyzeWebsite : PageOutcome → Except String Json
  | PageOutcome.navError m => Except.error m
  | PageOutcome.genError m => Except.error m
  | PageOutcome.response none => Except.ok (Json.obj pageFallback)
  | PageOutcome.response (some j) => Except.ok j

/-- analyzeWebsite together with the effects it performs: the browser is
launched before the try block, navigation is attempted next, and the
generation call happens only when navigation succeeded. -/
def analyzeWebsiteRun (url : String) (po : PageOutcome) :
    Except String Json × List Effect :=
  match po with
  | PageOutcome.navError m => (Except.error m, [Effect.browserLaunch, Effect.pageGoto url])
  | PageOutcome.genError m =>
      (Except.error m, [Effect.browserLaunch, Effect.pageGoto url, Effect.generateCall])
  | PageOutcome.response p =>
      (analyzeWebsite (PageOutcome.response p),
       [Effect.browserLaunch, Effect.pageGoto url, Effect.generateCall])

/-! ## analyzeRepository -/

/-- Per analyzed file, the external outcome inside the loop body:
`readFail` is `fs.readFileSync` throwing (uncaught, aborts the whole
run), `genFail` is the generation call or `JSON.parse` throwing (caught,
file skipped), `parsed j` is a successfully parsed response. -/
inductive FileEvent where
  | readFail
  | genFail
  | parsed (j : Json)
  deriving Repr

/-- The per-file loop of analyzeRepository: accumulate parsed responses
with `Object.assign`, skip caught per-file failures, abort on a read
failure.  Also returns the generation calls actually made. -/
def runFiles : List FileEvent → FunctionMap → Except String FunctionMap × List Effect
  | [], acc => (Except.ok acc, [])
  | FileEvent.readFail :: _, _ => (Except.error "read failed", [])
  | FileEvent.genFail :: rest, acc =>
      let r := runFiles rest acc
      (r.1, Effect.generateCall :: r.2)
  | FileEvent.parsed j :: rest, acc =>
      let r := runFiles rest (objAssign acc j)
      (r.1, Effect.generateCall :: r.2)

/-- External world of one analyzeRepository call. `fileEvents i` is the
outcome for the i-th analyzed file; `dirLeftOnCloneFail` says whether a
failed clone left the temporary directory on disk; `walkFails` models
getRelevantFiles itself throwing mid-walk. -/
structure RepoWorld where
  cloneFails : Bool
  dirLeftOnCloneFail : Bool
  walkFails : Bool
  tree : List FsEntry
  fileEvents : Nat → FileEvent

/-- Result of one analyzeRepository call, with the temporary clone
directory's existence after return made explicit. -/
structure RepoRunResult where
  result : Except String FunctionMap
  tempDirExists : Bool
  effects : List Effect

/-- analyzeRepository: clone into a fresh temp dir, walk the tree, take
the first 10 relevant files, run the per-file loop, remove the temp dir
(`fs.rmSync` on the success path, existence-checked `fs.rmSync` in the
catch), and return the accumulated map or the fixed fallback when it is
empty. -/
def analyzeRepositoryRun (url : String) (w : RepoWorld) : RepoRunResult :=
  if w.cloneFails then
    -- catch: if (fs.existsSync(tempDir)) fs.rmSync(tempDir, ...); throw
    let d0 := w.dirLeftOnCloneFail
    let d1 := if d0 then false else d0
    { result := Except.error "clone failed", tempDirExists := d1,
      effects := [Effect.gitClone url] }
  else
    -- clone succeeded: the temp dir now exists
    if w.walkFails then
      let d1 := if true then false else true
      { result := Except.error "walk failed", tempDirExists := d1,
        effects := [Effect.gitClone url] }
    else
      let files := (getRelevantFiles w.tree).take 10
      let evs := (List.range files.length).map w.fileEvents
      let r := runFiles evs []
      match r.1 with
      | Except.error e =>
          let d1 := if true then false else true
          { result := Except.error e, tempDirExists := d1,
            effects := Effect.gitClone url :: r.2 }
      | Except.ok m =>
          -- fs.rmSync(tempDir, { recursive: true, force: true })
          { result := Except.ok (if m.isEmpty then repoFallback else m),
            tempDirExists := false,
            effects := Effect.gitClone url :: r.2 }

/-! ## analyzeProject orchestrator and the POST route -/

/-- JavaScript truthiness of an optional string: absent and empty are
falsy. -/
def strTruthy : Option String → Bool
  | none => false
  | some s => !(s == "")

/-- The AnalysisResult record of analysis-service.ts. -/
structure AnalysisResult where
  success : Bool
  functionMap : Json
  error : Option String
  deriving Repr

/-- External world of one analyzeProject call (only the branch actually
taken consults its part). -/
structure World where
  page : PageOutcome
  repo : RepoWorld

/-- analyzeProject: `if (scrapeUrl)` runs the website branch, `else if
(githubUrl)` the repository branch, else the validation error; any throw
from a branch is caught and converted into a failed AnalysisResult with
an empty map. -/
def analyzeProjectRun (projectName : String) (githubUrl scrapeUrl : Option String)
    (w : World) : AnalysisResult × List Effect :=
  if strTruthy scrapeUrl then
    match analyzeWebsiteRun (scrapeUrl.getD "") w.page with
    | (Except.ok j, effs) => ({ success := true, functionMap := j, error := none }, effs)
    | (Except.error e, effs) =>
        ({ success := false, functionMap := Json.obj [], error := some e }, effs)
  else if strTruthy githubUrl then
    match analyzeRepositoryRun (githubUrl.getD "") w.repo with
    | { result := Except.ok m, tempDirExists := _, effects := effs } =>
        ({ success := true, functionMap := Json.obj m, error := none }, effs)
    | { result := Except.error e, tempDirExists := _, effects := effs } =>
        ({ success := false, functionMap := Json.obj [], error := some e }, effs)
  else
    ({ success := false, functionMap := Json.obj [],
       error := some "Either scrapeUrl or githubUrl is required" }, [])

/-! ## Key issuers -/

/-- Lowercase hex digit of a value below 16 (out-of-range indices cannot
arise from the byte decompositions below). -/
def toHexDigit (n : Nat) : Char :=
  "0123456789abcdef".toList.getD n '0'

/-- Hex encoding of a byte sequence: two lowercase digits per byte, as
produced both by `Buffer.toString('hex')` (route.ts, api.ts) and by
`byte.toString(16).padStart(2, '0')` (the getRandomValues variant). -/
def bytesToHex (bs : List Nat) : String :=
  String.mk (bs.flatMap (fun b => [toHexDigit (b / 16), toHexDigit (b % 16)]))

/-- Key issued by the persisted route and api.ts: `'learn_' +
crypto.randomBytes(16).toString('hex')`, with the 16 random bytes passed
in explicitly. -/
def routeApiKey (bs : List Nat) : String :=
  "learn_" ++ bytesToHex bs

/-- Character set of the mock key issuer. -/
def mockChars : List Char :=
  "ABCDEFGHIJKLMNOPQRSTUVWXYZabcdefghijklmnopqrstuvwxyz0123456789".toList

/-- generateApiKey of the mock (localStorage) variant in the repository:
32 characters drawn from `mockChars` at indices produced by
`Math.floor(Math.random() * chars.length)`, passed in explicitly. -/
def generateApiKey (rands : List Nat) : String :=
  "learn_" ++ String.mk (rands.map (fun i => mockChars.getD i 'A'))

/-- Response of the POST /api/projects route. -/
structure PostResponse where
  status : Nat
  apiKey : Option String
  functionMap : Option Json
  error : Option String
  deriving Repr

/-- POST /api/projects: validate the name, validate that at least one
target is truthy, issue the key, run analyzeProject, and answer 200 with
the key and map on success, 500 with the analysis error otherwise.  The
database round-trip of the map (stringify then parse) is the identity on
the values modelled here and is elided. -/
def postProjects (projectName scrapeUrl githubUrl : Option String)
    (keyBytes : List Nat) (w : World) : PostResponse :=
  if !(strTruthy projectName) then
    { status := 400, apiKey := none, functionMap := none,
      error := some "Project name is required" }
  else if !(strTruthy scrapeUrl) && !(strTruthy githubUrl) then
    { status := 400, apiKey := none, functionMap := none,
      error := some "Either scrapeUrl or githubUrl is required" }
  else
    let apiKey := routeApiKey keyBytes
    let r := analyzeProjectRun (projectName.getD "") githubUrl scrapeUrl w
    if r.1.success then
      { status := 200, apiKey := some apiKey, functionMap := some r.1.functionMap,
        error := none }
    else
      { status := 500, apiKey := none, functionMap := none, error := r.1.error }

/-! ## Plugin runtime (LearningPlugin) -/

/-- JavaScript property read `fm[learnId]` used by the plugin runtime.
In both variants the map handed to the runtime is an object (the
embedded variant serializes a `Record<string, string>`); non-object
values have no such named properties. -/
def mapGet (j : Json) (k : String) : Option Json :=
  match j with
  | Json.obj es => lookupKey es k
  | _ => none

/-- JavaScript truthiness of a possibly-absent property value. -/
def truthyJson : Option Json → Bool
  | none => false
  | some (Json.str s) => !(s == "")
  | some (Json.num n) => !(n == 0)
  | some (Json.bool b) => b
  | some Json.null => false
  | some (Json.arr _) => true
  | some (Json.obj _) => true

/-- Mutable state of one LearningPlugin instance together with the DOM
footprint it owns: `infoButtons` are the learn-ids whose info affordance
is currently in the document, `openModals` the modal overlays currently
in the document (by creation index), `currentModal` the one the instance
tracks. -/
structure PluginState where
  functionMap : Json
  isActive : Bool
  toggleAdded : Bool
  infoButtons : List String
  openModals : List Nat
  currentModal : Option Nat
  nextModalId : Nat
  deriving Repr

/-- State of a freshly constructed plugin before `init` runs. -/
def initialState : PluginState :=
  { functionMap := Json.obj [], isActive := false, toggleAdded := false,
    infoButtons := [], openModals := [], currentModal := none, nextModalId := 0 }

/-- Outcome of the startup fetch of the fetching-variant plugin:
`fail` covers a network error and a non-ok response (both land in the
catch of loadFunctionMap), `ok body` is the parsed response body. -/
inductive FetchOutcome where
  | fail
  | ok (body : Json)
  deriving Repr

/-- init of the fetching-variant plugin (ProjectsList.tsx): read the key
from the script tag and stay inert without one; otherwise run
loadFunctionMap — whose catch swallows a failed fetch, leaving the map
empty — and then, in both cases, createToggleButton. -/
def pluginInit (scriptApiKey : Option String) (fetch : FetchOutcome) : PluginState :=
  match scriptApiKey with
  | none => initialState
  | some k =>
    if k == "" then initialState
    else
      let fm := match fetch with
        | FetchOutcome.fail => initialState.functionMap
        | FetchOutcome.ok body => body
      { initialState with functionMap := fm, toggleAdded := true }

/-- closeModal: remove the tracked modal from the document (its delayed
removal is modelled as immediate) and clear the tracking field; a call
with nothing tracked does nothing. -/
def closeCurrentModal (s : PluginState) : PluginState :=
  match s.currentModal with
  | none => s
  | some m =>
      { s with openModals := s.openModals.filter (fun x => !(x == m)),
               currentModal := none }

/-- activateLearningMode: the info affordances added for a document,
one per marked element whose marker value has a truthy entry in the
map, in document order.  The document is modelled by the list of
`data-learn-id` values of its marked elements. -/
def collectButtons (doc : List String) (fm : Json) : List String :=
  doc.filter (fun id => truthyJson (mapGet fm id))

/-- User interactions the plugin runtime reacts to.  `infoActivate` is
the activation (click or keyboard) of an existing info affordance. -/
inductive PluginEvent where
  | toggleClick
  | infoActivate (learnId : String)
  | backgroundClick
  | closeControl
  | escapeKey
  deriving Repr

/-- One step of the plugin runtime.  showExplanation appends a fresh
modal to the document and repoints `currentModal` at it without closing
a previously open one; background click, the close control and Escape
all run closeModal, which only ever removes the tracked modal. -/
def pluginStep (doc : List String) (s : PluginState) : PluginEvent → PluginState
  | PluginEvent.toggleClick =>
      if s.isActive then
        closeCurrentModal { s with isActive := false, infoButtons := [] }
      else
        { s with isActive := true, infoButtons := collectButtons doc s.functionMap }
  | PluginEvent.infoActivate id =>
      if s.infoButtons.contains id then
        if truthyJson (mapGet s.functionMap id) then
          { s with openModals := s.openModals ++ [s.nextModalId],
                   currentModal := some s.nextModalId,
                   nextModalId := s.nextModalId + 1 }
        else s
      else s
  | PluginEvent.backgroundClick => closeCurrentModal s
  | PluginEvent.closeControl => closeCurrentModal s
  | PluginEvent.escapeKey => closeCurrentModal s

/-- Run of a sequence of plugin events. -/
def runEvents (doc : List String) (s : PluginState) (evs : List PluginEvent) : PluginState :=
  evs.foldl (pluginStep doc) s

/-! ## Plugin compiler (lib/api.ts) -/

/-- A stored project row as read back from the database, typed with the
declared `Record<string, string>` map shape. -/
structure DbProject where
  apiKey : String
  functionMap : List (String × String)
  deriving Repr

/-- dbOperations.getProjectByApiKey over the projects table. -/
def getProjectByApiKey (db : List DbProject) (k : String) : Option DbProject :=
  db.find? (fun p => p.apiKey == k)

/-- JSON string escaping as performed by `JSON.stringify` on the keys
and values of the embedded map. -/
def jsonEscapeChar (c : Char) : String :=
  if c == '"' then "\\\""
  else if c == '\\' then "\\\\"
  else if c == '\n' then "\\n"
  else if c == '\r' then "\\r"
  else if c == '\t' then "\\t"
  else if c == '\x08' then "\\b"
  else if c == '\x0c' then "\\f"
  else String.singleton c

/-- JSON quoting of a string. -/
def jsonQuote (s : String) : String :=
  "\"" ++ String.join (s.toList.map jsonEscapeChar) ++ "\""

/-- The serialized form of one map entry inside
`JSON.stringify(functionMap, null, 2)`. -/
def entryText (k v : String) : String :=
  jsonQuote k ++ ": " ++ jsonQuote v

/-- Comma-newline join of the serialized entry lines, as
`JSON.stringify` separates entries at indent level 2. -/
def joinLines : List String → String
  | [] => ""
  | [x] => x
  | x :: y :: ys => x ++ (",\n" ++ joinLines (y :: ys))

/-- `JSON.stringify(m, null, 2)` on a string map: `\x7b\x7d` when empty,
otherwise one two-space-indented entry per line. -/
def jsonStringifyMap (m : List (String × String)) : String :=
  if m.isEmpty then "\x7b\x7d"
  else
    "\x7b\n" ++ joinLines (m.map (fun p => "  " ++ entryText p.1 p.2)) ++ "\n\x7d"

/-- Fixed script text of generatePluginCode before the embedded map
(abbreviated: the full IIFE template is fixed text whose only varying
part is the serialized map). -/
def pluginCodePre : String :=
  "\n(function() \x7b\n  const FUNCTION_MAP = "

/-- Fixed script text of generatePluginCode after the embedded map
(abbreviated as above). -/
def pluginCodePost : String :=
  ";\n  class LearningPlugin \x7b ... \x7d\n  new LearningPlugin();\n\x7d)();\n"

/-- generatePluginCode: the fixed template with
`JSON.stringify(functionMap, null, 2)` spliced in. -/
def generatePluginCode (functionMap : List (String × String)) : String :=
  pluginCodePre ++ jsonStringifyMap functionMap ++ pluginCodePost

/-- generatePlugin: look the project up by key and splice its stored map
into the template; the fixed not-found sentinel otherwise.  The catch
branch of the source is unreachable here because the lookup is total. -/
def generatePlugin (db : List DbProject) (apiKey : String) : String :=
  match getProjectByApiKey db apiKey with
  | none => "// Plugin not found"
  | some p => generatePluginCode p.functionMap

/-! ## Spec-side and auxiliary predicates -/

/-- Hex digit test for key suffixes. -/
def isHexChar (c : Char) : Bool :=
  "0123456789abcdef".toList.contains c

/-- Alphanumeric test matching the mock issuer's character set. -/
def isMockChar (c : Char) : Bool :=
  mockChars.contains c

/-- Duplicate-free key test for parsed JSON objects. -/
def noDupKeys : List String → Bool
  | [] => true
  | k :: ks => !(ks.contains k) && noDupKeys ks

/-- A JSON value that is an object all of whose values are strings, as
the spec's `strict parse as a JSON object of string to string` reads;
parsed objects carry no duplicate keys. -/
def isStrStrObj : Json → Bool
  | Json.obj es =>
      es.all (fun p => match p.2 with | Json.str _ => true | _ => false) &&
      noDupKeys (es.map Prod.fst)
  | _ => false

/-- A raw-response parse outcome that is either a parse failure or a
string-to-string object. -/
def respValid : Option Json → Bool
  | none => true
  | some j => isStrStrObj j

/-- Modelled from the spec: the value a key receives under
`merged union of valid responses, last processed wins` — the entry for
the key in the last successfully parsed response that carries it. -/
def lastWinsSpec (rs : List (Option Json)) (k : String) : Option Json :=
  rs.reverse.findSome? (fun o =>
    match o with
    | none => none
    | some j => lookupKey (ownEntries j).reverse k)

/-! ## Helper lemmas -/

theorem repoAccum_of_all_none (rs : List (Option Json)) (m : FunctionMap)
    (h : ∀ o ∈ rs, o = none) :
    rs.foldl (fun m o => match o with | none => m | some j => objAssign m j) m = m := by
  induction rs generalizing m with
  | nil => rfl
  | cons o rest ih =>
    have ho : o = none := h o (by simp)
    subst ho
    exact ih m (fun o hm => h o (by simp [hm]))

theorem analyzeRepositoryRun_ok_ne_nil (url : String) (w : RepoWorld)
    (m : FunctionMap) (h : (analyzeRepositoryRun url w).result = Except.ok m) :
    m ≠ [] := by
  unfold analyzeRepositoryRun at h
  by_cases h1 : w.cloneFails
  · simp [h1] at h
  · by_cases h2 : w.walkFails
    · simp [h1, h2] at h
    · simp only [h1, h2, if_false, Bool.false_eq_true] at h
      set evs := (List.range ((getRelevantFiles w.tree).take 10).length).map w.fileEvents with hevs
      cases hr : (runFiles evs []).1 with
      | error e => rw [hr] at h; simp at h
      | ok acc =>
        rw [hr] at h
        injection h with h
        cases hacc : acc.isEmpty with
        | true =>
          have hm : m = repoFallback := by rw [← h]; simp [hacc]
          rw [hm]; intro hcon; exact absurd (congrArg List.length hcon) (by decide)
        | false =>
          have hm : m = acc := by rw [← h]; simp [hacc]
          rw [hm]
          intro hcon
          rw [hcon] at hacc
          simp at hacc

/-! ## C6 -/

/-- C6: on every exit path of analyzeRepository — successful analysis,
clone failure, read failure mid-loop, per-file generation failure — the
temporary clone directory does not exist when the call returns. -/
theorem c6_main (url : String) (w : RepoWorld) :
    (analyzeRepositoryRun url w).tempDirExists = false := by
  unfold analyzeRepositoryRun
  by_cases h1 : w.cloneFails
  · by_cases h2 : w.dirLeftOnCloneFail <;> simp [h1, h2]
  · by_cases h2 : w.walkFails
    · simp [h1, h2]
    · simp only [h1, h2, if_false, Bool.false_eq_true]
      cases hr : (runFiles ((List.range ((getRelevantFiles w.tree).take 10).length).map w.fileEvents) []).1 <;>
        simp [hr]

/-! ## C3 -/

/-- C3 (amended): when every raw response fails to parse as JSON, both
normalizations return exactly the fixed kind-specific fallback map: the
repository accumulation loop ends empty and substitutes the 4-entry repo
fallback, and analyzeWebsite's catch returns the 4-entry page
fallback. -/
theorem c3_main :
    (∀ rs : List (Option Json), (∀ o ∈ rs, o = none) → repoNormalize rs = repoFallback)
    ∧ analyzeWebsite (PageOutcome.response none) = Except.ok (Json.obj pageFallback) := by
  constructor
  · intro rs h
    unfold repoNormalize repoAccum
    rw [repoAccum_of_all_none rs [] h]
    rfl
  · rfl

/-- Witness for C3 at a concrete two-failure response list. -/
theorem c3_main_witness :
    repoNormalize [none, none] = repoFallback
    ∧ analyzeWebsite (PageOutcome.response none) = Except.ok (Json.obj pageFallback) :=
  ⟨c3_main.1 [none, none] (by intro o h; simpa using h), c3_main.2⟩

/-- C3 counterexample: the response text `[\x22x\x22]` does not parse as
a JSON object of string-to-string entries, yet `JSON.parse` succeeds on
it, so the repository loop merges its enumerable entry `0 -> x` via
`Object.assign` and the result is not the fallback map. -/
theorem c3_counterexample :
    ([some (Json.arr [Json.str "x"])].all
        (fun o => !(match o with | none => false | some j => isStrStrObj j)) = true)
    ∧ repoNormalize [some (Json.arr [Json.str "x"])] = [("0", Json.str "x")]
    ∧ repoNormalize [some (Json.arr [Json.str "x"])] ≠ repoFallback := by
  refine ⟨rfl, rfl, fun h => absurd (congrArg List.length h) (by decide)⟩

/-! ## C5 -/

theorem scanForest_dirs_ok (pfx : List String) (tree : List FsEntry)
    (hp : ∀ d ∈ pfx, hiddenName d = false ∧ excludedDirs.contains d = false) :
    ∀ f ∈ scanForest pfx tree, ∀ d ∈ f.path.dropLast,
      hiddenName d = false ∧ excludedDirs.contains d = false := by
  induction pfx, tree using scanForest.induct with
  | case1 pfx => intro f hf; simp [scanForest] at hf
  | case2 pfx name rest ih =>
    intro f hf
    unfold scanForest at hf
    rw [List.mem_append] at hf
    cases hf with
    | inl hf =>
      split at hf
      · rw [List.mem_singleton] at hf
        subst hf
        simpa [List.dropLast_concat] using hp
      · simp at hf
    | inr hf => exact ih hp f hf
  | case3 pfx name children rest ih1 ih2 =>
    intro f hf
    unfold scanForest at hf
    rw [List.mem_append] at hf
    cases hf with
    | inl hf =>
      split at hf
      · simp at hf
      · rename_i hc
        rw [Bool.or_eq_true, not_or] at hc
        refine ih1 ?_ f hf
        intro d hd
        rw [List.mem_append] at hd
        cases hd with
        | inl hd => exact hp d hd
        | inr hd =>
          rw [List.mem_singleton] at hd
          subst hd
          exact ⟨Bool.eq_false_iff.mpr hc.1, Bool.eq_false_iff.mpr hc.2⟩
    | inr hf => exact ih2 hp f hf

/-- C5 (amended): the per-run analyzed file list (the walk result capped
by `slice(0, 10)`) has at most 10 descriptors and contains no path
passing through a hidden or excluded directory; hidden directories are
skipped, but hidden files with an allow-listed extension are collected
(the file branch of the walk performs no hidden check). -/
theorem c5_main (tree : List FsEntry) :
    ((getRelevantFiles tree).take 10).length ≤ 10
    ∧ ∀ f ∈ getRelevantFiles tree, ∀ d ∈ f.path.dropLast,
        hiddenName d = false ∧ excludedDirs.contains d = false := by
  constructor
  · simp [List.length_take]
  · exact scanForest_dirs_ok [] tree (by simp)

/-- Witness for C5 at a concrete tree containing excluded and hidden
directories. -/
theorem c5_main_witness :
    (((getRelevantFiles [FsEntry.dir "src" [FsEntry.file "b.ts"],
        FsEntry.dir "node_modules" [FsEntry.file "a.js"]]).take 10).length ≤ 10)
    ∧ ∀ f ∈ getRelevantFiles [FsEntry.dir "src" [FsEntry.file "b.ts"],
        FsEntry.dir "node_modules" [FsEntry.file "a.js"]],
        ∀ d ∈ f.path.dropLast,
          hiddenName d = false ∧ excludedDirs.contains d = false :=
  c5_main [FsEntry.dir "src" [FsEntry.file "b.ts"],
    FsEntry.dir "node_modules" [FsEntry.file "a.js"]]

/-- C5 counterexample: a hidden file with an allow-listed extension is
collected by the walk, so the extracted list can contain a hidden
entry. -/
theorem c5_counterexample :
    getRelevantFiles [FsEntry.file ".hidden.js"]
      = [{ name := ".hidden.js", path := [".hidden.js"], extension := ".js" }]
    ∧ hiddenName ".hidden.js" = true := by
  have hext : relevantExtensions.contains (extname ".hidden.js") = true := rfl
  have hx : extname ".hidden.js" = ".js" := rfl
  refine ⟨?_, rfl⟩
  simp [getRelevantFiles, scanForest, hext, hx]
  decide

/-! ## C7 -/

theorem toHexDigit_hex (n : Nat) : isHexChar (toHexDigit n) = true := by
  unfold toHexDigit
  rw [List.getD_eq_getElem?_getD]
  rcases h : "0123456789abcdef".toList[n]? with _ | c
  · rfl
  · have hc : c ∈ "0123456789abcdef".toList := List.getElem?_mem h
    show isHexChar c = true
    have hall : ∀ x ∈ "0123456789abcdef".toList, isHexChar x = true := by decide
    exact hall c hc

theorem bytesToHex_length (bs : List Nat) : (bytesToHex bs).length = 2 * bs.length := by
  unfold bytesToHex
  rw [String.length_mk]
  induction bs with
  | nil => rfl
  | cons b rest ih =>
    rw [List.flatMap_cons, List.length_append, ih]
    simp
    omega

theorem bytesToHex_all_hex (bs : List Nat) :
    (bytesToHex bs).toList.all isHexChar = true := by
  show (bs.flatMap (fun b => [toHexDigit (b / 16), toHexDigit (b % 16)])).all isHexChar = true
  induction bs with
  | nil => rfl
  | cons b rest ih =>
    rw [List.flatMap_cons, List.all_append, ih]
    simp [toHexDigit_hex]

/-- C7 (amended): every issued key is the literal `learn_` followed by
exactly 32 characters.  In the crypto-based issuers (route.ts, api.ts and
the getRandomValues route variant) the suffix is 32 lowercase hex digits
of 16 CSPRNG bytes; in the mock issuer of the demo storage module the
suffix is 32 characters of the alphanumeric set drawn with
`Math.random`, which is neither hex-only nor a cryptographically secure
source. -/
theorem c7_main :
    (∀ bs : List Nat, bs.length = 16 →
        ∃ suf, routeApiKey bs = "learn_" ++ suf ∧ suf.length = 32
          ∧ suf.toList.all isHexChar = true)
    ∧ (∀ rands : List Nat, rands.length = 32 → (∀ i ∈ rands, i < 62) →
        ∃ suf, generateApiKey rands = "learn_" ++ suf ∧ suf.length = 32
          ∧ suf.toList.all isMockChar = true) := by
  constructor
  · intro bs hlen
    refine ⟨bytesToHex bs, rfl, ?_, bytesToHex_all_hex bs⟩
    rw [bytesToHex_length, hlen]
  · intro rands hlen hlt
    refine ⟨String.mk (rands.map (fun i => mockChars.getD i 'A')), rfl, ?_, ?_⟩
    · rw [String.length_mk, List.length_map, hlen]
    · show (rands.map (fun i => mockChars.getD i 'A')).all isMockChar = true
      rw [List.all_eq_true]
      intro c hc
      rw [List.mem_map] at hc
      obtain ⟨i, hi, hci⟩ := hc
      subst hci
      have hmem : mockChars.getD i 'A' ∈ mockChars := by
        rw [List.getD_eq_getElem?_getD]
        have hil : i < mockChars.length := by
          have : mockChars.length = 62 := rfl
          rw [this]
          exact hlt i hi
        rw [List.getElem?_eq_getElem hil]
        exact List.getElem_mem hil
      unfold isMockChar
      simpa using hmem

/-- Witness for C7 at concrete random draws. -/
theorem c7_main_witness :
    (∃ suf, routeApiKey (List.replicate 16 0) = "learn_" ++ suf ∧ suf.length = 32
      ∧ suf.toList.all isHexChar = true)
    ∧ (∃ suf, generateApiKey (List.replicate 32 0) = "learn_" ++ suf ∧ suf.length = 32
      ∧ suf.toList.all isMockChar = true) :=
  ⟨c7_main.1 (List.replicate 16 0) (by decide),
   c7_main.2 (List.replicate 32 0) (by decide)
     (fun i hi => by rw [List.eq_of_mem_replicate hi]; decide)⟩

/-- C7 counterexample: the mock issuer can draw the character Z (index
25) thirty-two times; the resulting key suffix contains no hex digits at
all, refuting the claim that every issued suffix is hexadecimal. -/
theorem c7_counterexample :
    generateApiKey (List.replicate 32 25)
      = "learn_" ++ String.mk (List.replicate 32 'Z')
    ∧ (String.mk (List.replicate 32 'Z')).toList.all isHexChar = false := ⟨rfl, rfl⟩

/-! ## C8 -/

/-- C8 (amended): when the startup fetch of the fetching-variant plugin
fails, the plugin does not crash and its function map stays empty, so
activating learning mode adds no info affordances — but the toggle
control is still added to the document, because loadFunctionMap's catch
swallows the failure and createToggleButton runs unconditionally
afterwards. -/
theorem c8_main (k : String) (hk : k ≠ "") (doc : List String) :
    (pluginInit (some k) FetchOutcome.fail).toggleAdded = true
    ∧ (pluginInit (some k) FetchOutcome.fail).functionMap = Json.obj []
    ∧ collectButtons doc (pluginInit (some k) FetchOutcome.fail).functionMap = []
    ∧ (pluginStep doc (pluginInit (some k) FetchOutcome.fail)
        PluginEvent.toggleClick).infoButtons = [] := by
  have hkb : (k == "") = false := by
    rw [beq_eq_false_iff_ne]
    exact hk
  have hstate : pluginInit (some k) FetchOutcome.fail
      = { initialState with functionMap := Json.obj [], toggleAdded := true } := by
    simp [pluginInit, hkb, initialState]
  have hcb : ∀ d : List String, collectButtons d (Json.obj []) = [] := by
    intro d
    unfold collectButtons
    rw [List.filter_eq_nil_iff]
    intro a _
    simp [mapGet, truthyJson, lookupKey]
  refine ⟨by rw [hstate], by rw [hstate], ?_, ?_⟩
  · rw [hstate]
    exact hcb doc
  · rw [hstate]
    simp only [pluginStep, initialState]
    rw [if_neg (by simp)]
    exact hcb doc

/-- Witness for C8 at a concrete key and document. -/
theorem c8_main_witness :
    (pluginInit (some "learn_demo") FetchOutcome.fail).toggleAdded = true
    ∧ (pluginInit (some "learn_demo") FetchOutcome.fail).functionMap = Json.obj []
    ∧ collectButtons ["main-header"]
        (pluginInit (some "learn_demo") FetchOutcome.fail).functionMap = []
    ∧ (pluginStep ["main-header"] (pluginInit (some "learn_demo") FetchOutcome.fail)
        PluginEvent.toggleClick).infoButtons = [] :=
  c8_main "learn_demo" (by decide) ["main-header"]

/-- C8 counterexample: after a failed startup fetch the toggle control
is added to the host document, refuting the claim that the plugin adds
no toggle control in that case. -/
theorem c8_counterexample :
    (pluginInit (some "learn_demo") FetchOutcome.fail).toggleAdded = true := rfl

/-! ## C9 -/

/-- C9 (amended): the plugin runtime tracks only the most recently
opened modal.  Background-click on the current overlay, the explicit
close control and the Escape key each remove exactly the tracked modal
from the document and clear the tracking; opening a new modal while one
is already open appends a fresh modal and repoints the tracking without
closing the earlier one, which stays in the document. -/
theorem c9_main (doc : List String) (s : PluginState) (m : Nat)
    (hm : s.currentModal = some m) :
    ((pluginStep doc s PluginEvent.backgroundClick).currentModal = none
      ∧ (pluginStep doc s PluginEvent.backgroundClick).openModals
          = s.openModals.filter (fun x => !(x == m))
      ∧ m ∉ (pluginStep doc s PluginEvent.backgroundClick).openModals)
    ∧ ((pluginStep doc s PluginEvent.closeControl).currentModal = none
      ∧ (pluginStep doc s PluginEvent.closeControl).openModals
          = s.openModals.filter (fun x => !(x == m)))
    ∧ ((pluginStep doc s PluginEvent.escapeKey).currentModal = none
      ∧ (pluginStep doc s PluginEvent.escapeKey).openModals
          = s.openModals.filter (fun x => !(x == m)))
    ∧ (∀ id, s.infoButtons.contains id = true →
        truthyJson (mapGet s.functionMap id) = true →
        (pluginStep doc s (PluginEvent.infoActivate id)).openModals
            = s.openModals ++ [s.nextModalId]
          ∧ (pluginStep doc s (PluginEvent.infoActivate id)).currentModal
              = some s.nextModalId) := by
  have hclose : closeCurrentModal s
      = { s with openModals := s.openModals.filter (fun x => !(x == m)),
                 currentModal := none } := by
    unfold closeCurrentModal
    rw [hm]
  refine ⟨⟨?_, ?_, ?_⟩, ⟨?_, ?_⟩, ⟨?_, ?_⟩, ?_⟩
  · show (closeCurrentModal s).currentModal = none
    rw [hclose]
  · show (closeCurrentModal s).openModals = _
    rw [hclose]
  · show m ∉ (closeCurrentModal s).openModals
    rw [hclose]
    simp
  · show (closeCurrentModal s).currentModal = none
    rw [hclose]
  · show (closeCurrentModal s).openModals = _
    rw [hclose]
  · show (closeCurrentModal s).currentModal = none
    rw [hclose]
  · show (closeCurrentModal s).openModals = _
    rw [hclose]
  · intro id hbtn htr
    have hstep : pluginStep doc s (PluginEvent.infoActivate id)
        = (if s.infoButtons.contains id then
            (if truthyJson (mapGet s.functionMap id) then
              { s with openModals := s.openModals ++ [s.nextModalId],
                       currentModal := some s.nextModalId,
                       nextModalId := s.nextModalId + 1 }
             else s)
           else s) := rfl
    rw [hstep, if_pos hbtn, if_pos htr]
    exact ⟨rfl, rfl⟩

/-- Witness for C9 at a concrete state with one tracked modal. -/
theorem c9_main_witness :
    ((pluginStep ["a"]
        { functionMap := Json.obj [("a", Json.str "x")], isActive := true,
          toggleAdded := true, infoButtons := ["a"], openModals := [0],
          currentModal := some 0, nextModalId := 1 }
        PluginEvent.backgroundClick).currentModal = none
      ∧ (pluginStep ["a"]
          { functionMap := Json.obj [("a", Json.str "x")], isActive := true,
            toggleAdded := true, infoButtons := ["a"], openModals := [0],
            currentModal := some 0, nextModalId := 1 }
          PluginEvent.backgroundClick).openModals
            = [0].filter (fun x => !(x == 0))
      ∧ 0 ∉ (pluginStep ["a"]
          { functionMap := Json.obj [("a", Json.str "x")], isActive := true,
            toggleAdded := true, infoButtons := ["a"], openModals := [0],
            currentModal := some 0, nextModalId := 1 }
          PluginEvent.backgroundClick).openModals)
    ∧ ((pluginStep ["a"]
          { functionMap := Json.obj [("a", Json.str "x")], isActive := true,
            toggleAdded := true, infoButtons := ["a"], openModals := [0],
            currentModal := some 0, nextModalId := 1 }
          (PluginEvent.infoActivate "a")).openModals = [0] ++ [1]
      ∧ (pluginStep ["a"]
          { functionMap := Json.obj [("a", Json.str "x")], isActive := true,
            toggleAdded := true, infoButtons := ["a"], openModals := [0],
            currentModal := some 0, nextModalId := 1 }
          (PluginEvent.infoActivate "a")).currentModal = some 1) :=
  ⟨(c9_main ["a"]
      { functionMap := Json.obj [("a", Json.str "x")], isActive := true,
        toggleAdded := true, infoButtons := ["a"], openModals := [0],
        currentModal := some 0, nextModalId := 1 } 0 rfl).1,
   (c9_main ["a"]
      { functionMap := Json.obj [("a", Json.str "x")], isActive := true,
        toggleAdded := true, infoButtons := ["a"], openModals := [0],
        currentModal := some 0, nextModalId := 1 } 0 rfl).2.2.2 "a" rfl rfl⟩

/-- C9 counterexample: with two mapped elements, activating one info
affordance and then (for example by keyboard) a second one leaves two
modal overlays in the document at once; showExplanation never closes or
checks the previously tracked modal. -/
theorem c9_counterexample :
    (runEvents ["a", "b"]
      { functionMap := Json.obj [("a", Json.str "ea"), ("b", Json.str "eb")],
        isActive := false, toggleAdded := true, infoButtons := [],
        openModals := [], currentModal := none, nextModalId := 0 }
      [PluginEvent.toggleClick, PluginEvent.infoActivate "a",
       PluginEvent.infoActivate "b"]).openModals = [0, 1] := rfl

/-! ## C2 -/

theorem websiteRun_no_clone (u : String) (po : PageOutcome) :
    ∀ e ∈ (analyzeWebsiteRun u po).2, ∀ c, e ≠ Effect.gitClone c := by
  cases po <;> intro e he c hcon <;> subst hcon <;> simp [analyzeWebsiteRun] at he

/-- C2 (amended): with neither target truthy, analyzeProject fails with
the validation error before any extractor or generator runs (no browser
launch, no navigation, no generation call, no clone); with the scrape
target set — in particular when both targets are set — the scrape branch
takes precedence, the page pipeline runs, and no clone ever occurs in
that call. -/
theorem c2_main (pn : String) (gu su : Option String) (w : World) :
    (strTruthy su = false → strTruthy gu = false →
      analyzeProjectRun pn gu su w
        = ({ success := false, functionMap := Json.obj [],
             error := some "Either scrapeUrl or githubUrl is required" }, []))
    ∧ (∀ u, su = some u → u ≠ "" →
        (analyzeProjectRun pn gu su w).2 = (analyzeWebsiteRun u w.page).2
        ∧ ∀ e ∈ (analyzeProjectRun pn gu su w).2, ∀ c, e ≠ Effect.gitClone c) := by
  constructor
  · intro hsu hgu
    unfold analyzeProjectRun
    rw [hsu, hgu]
    rfl
  · intro u hu hne
    subst hu
    have hsu : strTruthy (some u) = true := by
      show (!(u == "")) = true
      rw [beq_eq_false_iff_ne.mpr hne]
      rfl
    have heff : (analyzeProjectRun pn gu (some u) w).2 = (analyzeWebsiteRun u w.page).2 := by
      unfold analyzeProjectRun
      rw [if_pos hsu]
      simp only [Option.getD_some]
      split <;> rename_i heq
      · rw [heq]
      · rw [heq]
    exact ⟨heff, fun e he => websiteRun_no_clone u w.page e (heff ▸ he)⟩

/-- Witness for C2: both applications at concrete inputs, the
neither-target case and the both-target case. -/
theorem c2_main_witness :
    (analyzeProjectRun "P" none none
        { page := PageOutcome.response none,
          repo := { cloneFails := false, dirLeftOnCloneFail := false,
                    walkFails := false, tree := [],
                    fileEvents := fun _ => FileEvent.genFail } }
      = ({ success := false, functionMap := Json.obj [],
           error := some "Either scrapeUrl or githubUrl is required" }, []))
    ∧ ((analyzeProjectRun "P" (some "https://g") (some "https://s")
          { page := PageOutcome.response none,
            repo := { cloneFails := false, dirLeftOnCloneFail := false,
                      walkFails := false, tree := [],
                      fileEvents := fun _ => FileEvent.genFail } }).2
        = (analyzeWebsiteRun "https://s" (PageOutcome.response none)).2
      ∧ ∀ e ∈ (analyzeProjectRun "P" (some "https://g") (some "https://s")
          { page := PageOutcome.response none,
            repo := { cloneFails := false, dirLeftOnCloneFail := false,
                      walkFails := false, tree := [],
                      fileEvents := fun _ => FileEvent.genFail } }).2,
          ∀ c, e ≠ Effect.gitClone c) :=
  ⟨(c2_main "P" none none _).1 rfl rfl,
   (c2_main "P" (some "https://g") (some "https://s") _).2 "https://s" rfl (by decide)⟩

/-- C2 counterexample: a call with both targets set does not fail with a
validation error — the website branch runs (browser launch, navigation
and a generation call all occur) and the call succeeds. -/
theorem c2_counterexample :
    (analyzeProjectRun "P" (some "https://g") (some "https://s")
        { page := PageOutcome.response (some (Json.obj [("a", Json.str "x")])),
          repo := { cloneFails := false, dirLeftOnCloneFail := false,
                    walkFails := false, tree := [],
                    fileEvents := fun _ => FileEvent.genFail } }).1.success = true
    ∧ (analyzeProjectRun "P" (some "https://g") (some "https://s")
        { page := PageOutcome.response (some (Json.obj [("a", Json.str "x")])),
          repo := { cloneFails := false, dirLeftOnCloneFail := false,
                    walkFails := false, tree := [],
                    fileEvents := fun _ => FileEvent.genFail } }).2
      = [Effect.browserLaunch, Effect.pageGoto "https://s", Effect.generateCall] :=
  ⟨rfl, rfl⟩

/-! ## C4 -/

theorem lookupKey_append (l₁ l₂ : FunctionMap) (k : String) :
    lookupKey (l₁ ++ l₂) k = (lookupKey l₁ k).or (lookupKey l₂ k) := by
  induction l₁ with
  | nil => rfl
  | cons p rest ih =>
    obtain ⟨a, b⟩ := p
    show (if a = k then some b else lookupKey (rest ++ l₂) k)
      = (if a = k then some b else lookupKey rest k).or (lookupKey l₂ k)
    by_cases ha : a = k
    · rw [if_pos ha, if_pos ha]
      rfl
    · rw [if_neg ha, if_neg ha, ih]

theorem lookupKey_setKey (m : FunctionMap) (k : String) (v : Json) (k' : String) :
    lookupKey (setKey m k v) k' = if k = k' then some v else lookupKey m k' := by
  induction m with
  | nil =>
    by_cases h : k = k' <;> simp [setKey, lookupKey, h]
  | cons p rest ih =>
    obtain ⟨a, b⟩ := p
    unfold setKey
    by_cases ha : a = k
    · rw [if_pos ha]
      by_cases hk : k = k'
      · simp [lookupKey, hk, ha]
      · simp [lookupKey, hk, ha]
    · rw [if_neg ha]
      by_cases hak : a = k'
      · have hkk : k ≠ k' := fun h => ha (hak.trans h.symm)
        simp [lookupKey, hak, hkk]
      · simp [lookupKey, hak, ih]

theorem lookupKey_foldl_entries (es : List (String × Json)) (m : FunctionMap) (k : String) :
    lookupKey (es.foldl (fun acc p => setKey acc p.1 p.2) m) k
      = (lookupKey es.reverse k).or (lookupKey m k) := by
  induction es generalizing m with
  | nil => simp [lookupKey]
  | cons p rest ih =>
    obtain ⟨a, b⟩ := p
    rw [List.foldl_cons, ih, List.reverse_cons, lookupKey_append]
    cases hr : lookupKey rest.reverse k with
    | some q => rfl
    | none =>
      rw [lookupKey_setKey]
      show (if a = k then some b else lookupKey m k)
        = ((if a = k then some b else lookupKey [] k)).or (lookupKey m k)
      by_cases ha : a = k
      · rw [if_pos ha, if_pos ha]
        rfl
      · rw [if_neg ha, if_neg ha]
        rfl

theorem lookupKey_objAssign (m : FunctionMap) (j : Json) (k : String) :
    lookupKey (objAssign m j) k
      = (lookupKey (ownEntries j).reverse k).or (lookupKey m k) :=
  lookupKey_foldl_entries (ownEntries j) m k

theorem lookupKey_repoFold (rs : List (Option Json)) (m : FunctionMap) (k : String) :
    lookupKey (rs.foldl (fun m o => match o with | none => m | some j => objAssign m j) m) k
      = (lastWinsSpec rs k).or (lookupKey m k) := by
  induction rs generalizing m with
  | nil => rfl
  | cons o rest ih =>
    have hsplit : lastWinsSpec (o :: rest) k
        = (lastWinsSpec rest k).or (match o with
            | none => none
            | some j => lookupKey (ownEntries j).reverse k) := by
      unfold lastWinsSpec
      rw [List.reverse_cons, List.findSome?_append]
      cases o with
      | none => rfl
      | some j =>
        congr 1
        rw [List.findSome?_cons]
        cases hlk : lookupKey (ownEntries j).reverse k <;> simp [hlk]
    rw [List.foldl_cons, hsplit]
    cases o with
    | none =>
      rw [ih, Option.or_none]
    | some j =>
      rw [ih, lookupKey_objAssign, Option.or_assoc]

/-- C4 (amended): over raw-response lists in which every response either
fails JSON parsing or parses to a JSON object of string-to-string
entries, and whose accumulated merge is non-empty, the repository
normalization returns exactly the accumulated merge, and the value of
every key is the one carried by the last parsed response containing that
key (parse failures contribute nothing).  When the accumulated merge is
empty — for example when the only parsed responses are empty objects —
the fixed fallback map is returned instead of the empty union. -/
theorem c4_main (rs : List (Option Json))
    (hvalid : rs.all respValid = true)
    (hne : repoAccum rs ≠ []) :
    repoNormalize rs = repoAccum rs
    ∧ ∀ k, lookupKey (repoNormalize rs) k = lastWinsSpec rs k := by
  have h1 : repoNormalize rs = repoAccum rs := by
    unfold repoNormalize
    rw [if_neg (by rw [List.isEmpty_eq_true]; exact hne)]
  refine ⟨h1, fun k => ?_⟩
  rw [h1]
  have h2 := lookupKey_repoFold rs [] k
  unfold repoAccum
  rw [h2]
  exact Option.or_none

/-- Witness for C4 at a concrete mixed list with a key collision. -/
theorem c4_main_witness :
    (repoNormalize [some (Json.obj [("a", Json.str "1")]), none,
        some (Json.obj [("a", Json.str "2"), ("b", Json.str "3")])]
      = repoAccum [some (Json.obj [("a", Json.str "1")]), none,
        some (Json.obj [("a", Json.str "2"), ("b", Json.str "3")])])
    ∧ ∀ k, lookupKey (repoNormalize [some (Json.obj [("a", Json.str "1")]), none,
        some (Json.obj [("a", Json.str "2"), ("b", Json.str "3")])]) k
      = lastWinsSpec [some (Json.obj [("a", Json.str "1")]), none,
        some (Json.obj [("a", Json.str "2"), ("b", Json.str "3")])] k :=
  c4_main [some (Json.obj [("a", Json.str "1")]), none,
      some (Json.obj [("a", Json.str "2"), ("b", Json.str "3")])]
    rfl
    (fun h => absurd (congrArg List.length h) (by decide))

/-- C4 counterexample: the list mixing one unparseable response with one
valid (empty-object) response has an empty merged union of valid
entries, yet normalization returns the 4-entry fallback map, not the
union. -/
theorem c4_counterexample :
    repoNormalize [none, some (Json.obj [])] = repoFallback
    ∧ repoFallback ≠ ([] : FunctionMap) :=
  ⟨rfl, fun h => absurd (congrArg List.length h) (by decide)⟩

/-! ## C10 -/

theorem joinLines_mem (l : List String) (x : String) (hx : x ∈ l) :
    ∃ a b, joinLines l = a ++ (x ++ b) := by
  induction l with
  | nil => simp at hx
  | cons y ys ih =>
    cases ys with
    | nil =>
      rw [List.mem_singleton] at hx
      subst hx
      exact ⟨"", "", by rw [String.empty_append, String.append_empty]; rfl⟩
    | cons z zs =>
      rw [List.mem_cons] at hx
      cases hx with
      | inl hx =>
        subst hx
        exact ⟨"", ",\n" ++ joinLines (z :: zs), by rw [String.empty_append]; rfl⟩
      | inr hx =>
        obtain ⟨a, b, hab⟩ := ih hx
        refine ⟨y ++ ",\n" ++ a, b, ?_⟩
        show y ++ (",\n" ++ joinLines (z :: zs)) = y ++ ",\n" ++ a ++ (x ++ b)
        rw [hab, String.append_assoc, String.append_assoc]

/-- C10: the embedded-variant plugin compiler is total — the lookup
either misses and the exact sentinel text is returned, or the project is
found and the returned script text contains the `JSON.stringify`
serialization of every entry of the stored function map. -/
theorem c10_main (db : List DbProject) (key : String) :
    (getProjectByApiKey db key = none → generatePlugin db key = "// Plugin not found")
    ∧ (∀ p, getProjectByApiKey db key = some p →
        ∀ k v, (k, v) ∈ p.functionMap →
          ∃ a b, generatePlugin db key = a ++ (entryText k v ++ b)) := by
  constructor
  · intro hnone
    unfold generatePlugin
    rw [hnone]
  · intro p hp k v hkv
    unfold generatePlugin
    rw [hp]
    show ∃ a b, generatePluginCode p.functionMap = a ++ (entryText k v ++ b)
    unfold generatePluginCode jsonStringifyMap
    rw [if_neg (by rw [List.isEmpty_eq_true, List.eq_nil_iff_forall_not_mem]; exact fun h => h (k, v) hkv)]
    have hmem : ("  " ++ entryText k v) ∈ p.functionMap.map (fun q => "  " ++ entryText q.1 q.2) :=
      List.mem_map.mpr ⟨(k, v), hkv, rfl⟩
    obtain ⟨a, b, hab⟩ := joinLines_mem _ _ hmem
    refine ⟨pluginCodePre ++ ("\x7b\n" ++ (a ++ "  ")), b ++ ("\n\x7d" ++ pluginCodePost), ?_⟩
    rw [hab]
    simp [String.append_assoc]

/-- Witness for C10 at a concrete one-project database: the found branch
and the not-found branch. -/
theorem c10_main_witness :
    (∃ a b, generatePlugin [{ apiKey := "learn_k", functionMap := [("a", "b")] }] "learn_k"
        = a ++ (entryText "a" "b" ++ b))
    ∧ generatePlugin [{ apiKey := "learn_k", functionMap := [("a", "b")] }] "learn_x"
        = "// Plugin not found" :=
  ⟨(c10_main [{ apiKey := "learn_k", functionMap := [("a", "b")] }] "learn_k").2
      { apiKey := "learn_k", functionMap := [("a", "b")] } rfl "a" "b" (by simp),
   (c10_main [{ apiKey := "learn_k", functionMap := [("a", "b")] }] "learn_x").1 rfl⟩

/-! ## C1 -/

theorem strTruthy_some_true (s : String) (h : s ≠ "") : strTruthy (some s) = true := by
  show (!(s == "")) = true
  rw [beq_eq_false_iff_ne.mpr h]
  rfl

theorem strTruthy_true_elim (s? : Option String) (h : strTruthy s? = true) :
    ∃ u, s? = some u ∧ u ≠ "" := by
  cases s? with
  | none => exact absurd h (by simp [strTruthy])
  | some u =>
    refine ⟨u, rfl, ?_⟩
    have h' : (u == "") = false := by
      have := h
      rw [show strTruthy (some u) = !(u == "") from rfl, Bool.not_eq_eq_eq_not] at this
      exact this
    exact beq_eq_false_iff_ne.mp h'

theorem postProjects_valid (pn : String) (su gu : Option String) (bs : List Nat) (w : World)
    (hpn : strTruthy (some pn) = true)
    (hc : (!(strTruthy su) && !(strTruthy gu)) = false) :
    postProjects (some pn) su gu bs w
      = (if (analyzeProjectRun pn gu su w).1.success then
          { status := 200, apiKey := some (routeApiKey bs),
            functionMap := some (analyzeProjectRun pn gu su w).1.functionMap,
            error := none }
        else
          { status := 500, apiKey := none, functionMap := none,
            error := (analyzeProjectRun pn gu su w).1.error }) := by
  unfold postProjects
  rw [hpn, hc]
  rfl

theorem analyzeProjectRun_scrape (pn : String) (gu : Option String) (u : String)
    (hu : u ≠ "") (w : World) :
    analyzeProjectRun pn gu (some u) w
      = (match analyzeWebsiteRun u w.page with
         | (Except.ok j, effs) => ({ success := true, functionMap := j, error := none }, effs)
         | (Except.error e, effs) =>
             ({ success := false, functionMap := Json.obj [], error := some e }, effs)) := by
  unfold analyzeProjectRun
  rw [if_pos (strTruthy_some_true u hu)]
  rfl

theorem analyzeProjectRun_repo (pn : String) (u : String) (hu : u ≠ "")
    (su : Option String) (hsu : strTruthy su = false) (w : World) :
    analyzeProjectRun pn (some u) su w
      = (match analyzeRepositoryRun u w.repo with
         | { result := Except.ok m, tempDirExists := _, effects := effs } =>
             ({ success := true, functionMap := Json.obj m, error := none }, effs)
         | { result := Except.error e, tempDirExists := _, effects := effs } =>
             ({ success := false, functionMap := Json.obj [], error := some e }, effs)) := by
  unfold analyzeProjectRun
  rw [hsu, if_pos (strTruthy_some_true u hu)]
  rfl

/-- C1 (amended): for a non-empty project name and exactly one truthy
target, the POST pipeline either fails with a classified error (500 and
a message) or answers 200 with a key of the fixed `learn_` prefix
followed by the hex of the issued random bytes and a function map; the
map has at least one entry in the repository variant, and in the page
variant it is the 4-entry fallback exactly when the model response
failed to parse — a page response parsing to a JSON value with no
entries is returned as-is, so the page-variant map can be empty. -/
theorem c1_main (pn : String) (su gu : Option String) (bs : List Nat) (w : World)
    (hpn : pn ≠ "") (hone : strTruthy su ≠ strTruthy gu) :
    ((postProjects (some pn) su gu bs w).status = 500
      ∧ (postProjects (some pn) su gu bs w).error ≠ none)
    ∨ ((postProjects (some pn) su gu bs w).status = 200
      ∧ (postProjects (some pn) su gu bs w).apiKey = some ("learn_" ++ bytesToHex bs)
      ∧ ∃ j, (postProjects (some pn) su gu bs w).functionMap = some j
          ∧ (strTruthy gu = true → ownEntries j ≠ [])
          ∧ (strTruthy su = true → w.page = PageOutcome.response none →
              j = Json.obj pageFallback)) := by
  have hpn' : strTruthy (some pn) = true := strTruthy_some_true pn hpn
  have hcond2 : (!(strTruthy su) && !(strTruthy gu)) = false := by
    cases hsu : strTruthy su
    · cases hgu : strTruthy gu
      · rw [hsu, hgu] at hone
        exact absurd rfl hone
      · rfl
    · rfl
  rw [postProjects_valid pn su gu bs w hpn' hcond2]
  cases hsu : strTruthy su with
  | true =>
    obtain ⟨u, hueq, hu⟩ := strTruthy_true_elim su hsu
    subst hueq
    rw [analyzeProjectRun_scrape pn gu u hu w]
    cases hpo : w.page with
    | navError m => exact Or.inl ⟨rfl, fun hcon => nomatch hcon⟩
    | genError m => exact Or.inl ⟨rfl, fun hcon => nomatch hcon⟩
    | response p =>
      cases p with
      | none =>
        refine Or.inr ⟨rfl, rfl, Json.obj pageFallback, rfl, ?_, fun _ _ => rfl⟩
        intro hgu
        rw [hsu, hgu] at hone
        exact absurd rfl hone
      | some jj =>
        refine Or.inr ⟨rfl, rfl, jj, rfl, ?_, ?_⟩
        · intro hgu
          rw [hsu, hgu] at hone
          exact absurd rfl hone
        · intro _ hpage
          injection hpage with h
          exact nomatch h
  | false =>
    have hgu : strTruthy gu = true := by
      cases hg : strTruthy gu
      · rw [hsu, hg] at hone
        exact absurd rfl hone
      · rfl
    obtain ⟨u, hueq, hu⟩ := strTruthy_true_elim gu hgu
    subst hueq
    rw [analyzeProjectRun_repo pn u hu su hsu w]
    cases hres : analyzeRepositoryRun u w.repo with
    | mk result dirE effs =>
      cases result with
      | ok m =>
        refine Or.inr ⟨rfl, rfl, Json.obj m, rfl, ?_, ?_⟩
        · intro _ hcon
          exact analyzeRepositoryRun_ok_ne_nil u w.repo m (by rw [hres]) hcon
        · intro hsu' _
          exact nomatch hsu'
      | error e => exact Or.inl ⟨rfl, fun hcon => nomatch hcon⟩

/-- Witness for C1 at the spec's own end-to-end example: a page analysis
whose response parses to a one-entry object. -/
theorem c1_main_witness :
    ((postProjects (some "Docs Site") (some "https://example.com") none
        (List.replicate 16 0)
        { page := PageOutcome.response (some (Json.obj [("main-header", Json.str "Site header")])),
          repo := { cloneFails := false, dirLeftOnCloneFail := false, walkFails := false,
                    tree := [], fileEvents := fun _ => FileEvent.genFail } }).status = 500
      ∧ (postProjects (some "Docs Site") (some "https://example.com") none
        (List.replicate 16 0)
        { page := PageOutcome.response (some (Json.obj [("main-header", Json.str "Site header")])),
          repo := { cloneFails := false, dirLeftOnCloneFail := false, walkFails := false,
                    tree := [], fileEvents := fun _ => FileEvent.genFail } }).error ≠ none)
    ∨ ((postProjects (some "Docs Site") (some "https://example.com") none
        (List.replicate 16 0)
        { page := PageOutcome.response (some (Json.obj [("main-header", Json.str "Site header")])),
          repo := { cloneFails := false, dirLeftOnCloneFail := false, walkFails := false,
                    tree := [], fileEvents := fun _ => FileEvent.genFail } }).status = 200
      ∧ (postProjects (some "Docs Site") (some "https://example.com") none
        (List.replicate 16 0)
        { page := PageOutcome.response (some (Json.obj [("main-header", Json.str "Site header")])),
          repo := { cloneFails := false, dirLeftOnCloneFail := false, walkFails := false,
                    tree := [], fileEvents := fun _ => FileEvent.genFail } }).apiKey
          = some ("learn_" ++ bytesToHex (List.replicate 16 0))
      ∧ ∃ j, (postProjects (some "Docs Site") (some "https://example.com") none
        (List.replicate 16 0)
        { page := PageOutcome.response (some (Json.obj [("main-header", Json.str "Site header")])),
          repo := { cloneFails := false, dirLeftOnCloneFail := false, walkFails := false,
                    tree := [], fileEvents := fun _ => FileEvent.genFail } }).functionMap = some j
          ∧ (strTruthy (none : Option String) = true → ownEntries j ≠ [])
          ∧ (strTruthy (some "https://example.com") = true →
              PageOutcome.response (some (Json.obj [("main-header", Json.str "Site header")]))
                = PageOutcome.response none →
              j = Json.obj pageFallback)) :=
  c1_main "Docs Site" (some "https://example.com") none (List.replicate 16 0)
    { page := PageOutcome.response (some (Json.obj [("main-header", Json.str "Site header")])),
      repo := { cloneFails := false, dirLeftOnCloneFail := false, walkFails := false,
                tree := [], fileEvents := fun _ => FileEvent.genFail } }
    (by decide) (by decide)

/-- C1 counterexample: with a non-empty project name and exactly the
scrape target set, a model response parsing to the empty JSON object
makes the pipeline succeed (status 200) while the returned function map
has zero entries — the page branch applies its fallback only when
parsing throws. -/
theorem c1_counterexample :
    (postProjects (some "P") (some "https://x") none (List.replicate 16 0)
        { page := PageOutcome.response (some (Json.obj [])),
          repo := { cloneFails := false, dirLeftOnCloneFail := false, walkFails := false,
                    tree := [], fileEvents := fun _ => FileEvent.genFail } }).status = 200
    ∧ (postProjects (some "P") (some "https://x") none (List.replicate 16 0)
        { page := PageOutcome.response (some (Json.obj [])),
          repo := { cloneFails := false, dirLeftOnCloneFail := false, walkFails := false,
                    tree := [], fileEvents := fun _ => FileEvent.genFail } }).functionMap
      = some (Json.obj [])
    ∧ ownEntries (Json.obj []) = [] := ⟨rfl, rfl, rfl⟩

end SiteLearn
